import Mathlib

/-!
Verification of the specio3 SPC decoder against its specification.

The repository ships a thin Python wrapper (`src/specio3/__init__.py`)
around a native pybind11 decoder (`specio3/spc_reader.cpp` /
`specio3/bindings.cpp`, referenced from `setup.py` but not present in the
source snapshot).  The wrapper is embedded below directly from its Python
source.  The native decoder is modelled from the specification (spec.md,
sections 3, 4 and 7); every definition doing so carries a doc comment
starting with `Modelled from the spec:`.
-/

namespace Specio3

/-! ## Byte-level primitives (little-endian integers) -/

/-- Modelled from the spec: §4.1 byte cursor primitives of the missing
`spc_reader.cpp`.  Interpret a 16-bit unsigned value as a signed i16. -/
def toI16 (u : Nat) : Int :=
  if u % 65536 < 32768 then ((u % 65536 : Nat) : Int)
  else ((u % 65536 : Nat) : Int) - 65536

/-- Modelled from the spec: §4.1 byte cursor primitives of the missing
`spc_reader.cpp`.  Interpret a 32-bit unsigned value as a signed i32. -/
def toI32 (u : Nat) : Int :=
  if u % 4294967296 < 2147483648 then ((u % 4294967296 : Nat) : Int)
  else ((u % 4294967296 : Nat) : Int) - 4294967296

/-- Modelled from the spec: §4.1, little-endian u32 from four bytes. -/
def leU32 (b0 b1 b2 b3 : Nat) : Nat :=
  b0 + 256 * b1 + 65536 * b2 + 16777216 * b3

/-- Swap the 16-bit halves of a 32-bit word. -/
def halfSwap16 (u : Nat) : Nat :=
  (u % 65536) * 65536 + u / 65536

/-- Modelled from the spec: §4.5 of the missing `spc_reader.cpp`.  A Y word
is stored on disk as `[b2, b3, b0, b1]` relative to the canonical
little-endian i32 `[b0, b1, b2, b3]`; the decoder reassembles the canonical
signed value.  Arguments are the four stored bytes in disk order. -/
def swappedI32 (s0 s1 s2 s3 : Nat) : Int :=
  toI32 (s2 + 256 * s3 + 65536 * s0 + 16777216 * s1)

/-- Modelled from the spec: §4.1/§4.3 of the missing `spc_reader.cpp`.
IEEE-754 binary32 decoding from four little-endian bytes, with exact values
in ℚ.  Non-finite encodings (biased exponent 255) are mapped to the value
of the same formula, since ℚ has no infinities or NaN. -/
def f32FromBytes (b0 b1 b2 b3 : Nat) : ℚ :=
  let u := leU32 b0 b1 b2 b3
  let s : ℚ := if u / 2147483648 % 2 = 1 then -1 else 1
  let E := u / 8388608 % 256
  let m := u % 8388608
  if E = 0 then s * ((m : ℚ) / 8388608) * (2 : ℚ) ^ (-(126 : Int))
  else s * (1 + (m : ℚ) / 8388608) * (2 : ℚ) ^ ((E : Int) - 127)

/-- Modelled from the spec: read `n` consecutive little-endian f32 values
from a byte stream; `none` when the stream is too short (`Truncated`). -/
def readF32s : Nat → List Nat → Option (List ℚ)
  | 0, _ => some []
  | n + 1, b0 :: b1 :: b2 :: b3 :: rest =>
    match readF32s n rest with
    | some vs => some (f32FromBytes b0 b1 b2 b3 :: vs)
    | none => none
  | _ + 1, _ => none

/-- Modelled from the spec: read `n` consecutive little-endian i16 values
from a byte stream; `none` when the stream is too short (`Truncated`). -/
def readI16s : Nat → List Nat → Option (List Int)
  | 0, _ => some []
  | n + 1, b0 :: b1 :: rest =>
    match readI16s n rest with
    | some vs => some (toI16 (b0 + 256 * b1) :: vs)
    | none => none
  | _ + 1, _ => none

/-- Modelled from the spec: §4.5, read `n` consecutive byte-swapped i32
words from a byte stream; `none` when the stream is too short. -/
def readSwappedI32s : Nat → List Nat → Option (List Int)
  | 0, _ => some []
  | n + 1, s0 :: s1 :: s2 :: s3 :: rest =>
    match readSwappedI32s n rest with
    | some vs => some (swappedI32 s0 s1 s2 s3 :: vs)
    | none => none
  | _ + 1, _ => none

/-! ## Header model -/

/-- Modelled from the spec: §3 MainHeader flag bits of the missing
`spc_reader.cpp` (only the bits the decoder consumes). -/
structure Flags where
  tsprec : Bool
  tmulti : Bool
  txyxys : Bool
  txvals : Bool
  deriving DecidableEq

/-- Modelled from the spec: §3/§4.2 MainHeader of the missing
`spc_reader.cpp`.  `first` and `last` are the already-decoded f64
endpoints, represented exactly in ℚ; `exponent` is the i8 value. -/
structure MainHeader where
  flags : Flags
  version : Nat
  exponent : Int
  npts : Int
  first : ℚ
  last : ℚ
  nsub : Int
  deriving DecidableEq

/-- Modelled from the spec: §7 error taxonomy of the missing decoder. -/
inductive SpcError where
  | truncated
  | unsupportedVariant
  | invalidHeader
  | shapeMismatch
  deriving DecidableEq

/-- Modelled from the spec: §3/§4.4 SubHeader fields plus the raw byte
blocks that follow each subfile header.  `subExp` is the i16 subheader
exponent, `subNpts` the per-subfile point count (used in TXYXYS mode),
`xBytes` the per-subfile X block bytes and `yBytes` the Y block bytes. -/
structure SubfileRaw where
  subExp : Int
  subNpts : Nat
  xBytes : List Nat
  yBytes : List Nat
  deriving DecidableEq

/-- Modelled from the spec: the portions of an SPC byte stream the decoder
consumes, with the 512-byte main header already structured. -/
structure SpcRaw where
  header : MainHeader
  sharedXBytes : List Nat
  subs : List SubfileRaw
  deriving DecidableEq

/-- Modelled from the spec: §4.2 main-header validation of the missing
`spc_reader.cpp`: version must be 0x4B, `npts > 0`, `nsub > 0`, and TXYXYS
requires TMULTI.  (`first`/`last` finiteness is automatic in ℚ.) -/
def validateHeader (h : MainHeader) : Except SpcError Unit :=
  if h.version ≠ 75 then .error .unsupportedVariant
  else if h.npts ≤ 0 then .error .invalidHeader
  else if h.nsub ≤ 0 then .error .invalidHeader
  else if h.flags.txyxys && !h.flags.tmulti then .error .invalidHeader
  else .ok ()

/-- Modelled from the spec: §4.2, the effective subfile count: `nsub` when
TMULTI is set, otherwise forced to 1. -/
def effNsub (h : MainHeader) : Nat :=
  if h.flags.tmulti then h.nsub.toNat else 1

/-- Modelled from the spec: §4.3 even X-axis generation:
`x[i] = first + i * (last - first) / (npts - 1)`, with the `npts = 1`
case producing exactly `[first]`. -/
def evenX (first last : ℚ) (npts : Nat) : List ℚ :=
  if npts = 1 then [first]
  else (List.range npts).map fun (i : ℕ) =>
    first + (i : ℚ) * (last - first) / ((npts : ℚ) - 1)

/-- Modelled from the spec: §4.4 effective exponent resolution: the i16
sentinel −32768 means "inherit from the main header". -/
def effectiveExp (mainExp subExp : Int) : Int :=
  if subExp = -32768 then mainExp else subExp

/-- Modelled from the spec: §4.4, an effective exponent whose low 8 bits
equal 0x80 marks the subfile as floating-point Y. -/
def isFloatExp (e : Int) : Bool :=
  e.emod 256 == 128

/-- Modelled from the spec: §4.5 floating-point Y branch: read `n` f32
values and widen; no scaling. -/
def floatY (n : Nat) (bytes : List Nat) : Except SpcError (List ℚ) :=
  match readF32s n bytes with
  | some ys => .ok ys
  | none => .error .truncated

/-- Modelled from the spec: §4.5 Y decoder of the missing `spc_reader.cpp`.
Floating sentinel → f32 path (regardless of TSPREC); TSPREC → i16 words
scaled by `2 ^ (e − 16)`; otherwise byte-swapped i32 words scaled by
`2 ^ (e − 32)`. -/
def decodeY (tsprec : Bool) (e : Int) (n : Nat) (bytes : List Nat) :
    Except SpcError (List ℚ) :=
  if isFloatExp e then floatY n bytes
  else if tsprec then
    match readI16s n bytes with
    | some rs => .ok (rs.map fun r => (r : ℚ) * (2 : ℚ) ^ (e - 16))
    | none => .error .truncated
  else
    match readSwappedI32s n bytes with
    | some rs => .ok (rs.map fun r => (r : ℚ) * (2 : ℚ) ^ (e - 32))
    | none => .error .truncated

/-- Modelled from the spec: §4.6, this subfile's point count: `sub.npts`
in TXYXYS mode, else the main header's `npts`. -/
def subPointCount (h : MainHeader) (s : SubfileRaw) : Nat :=
  if h.flags.txyxys then s.subNpts else h.npts.toNat

/-- Modelled from the spec: §4.6, this subfile's X axis: its own explicit
f32 block in TXYXYS mode, else the shared axis. -/
def subXAxis (h : MainHeader) (sharedX : List ℚ) (n : Nat) (s : SubfileRaw) :
    Except SpcError (List ℚ) :=
  if h.flags.txyxys then
    match readF32s n s.xBytes with
    | some xs => .ok xs
    | none => .error .truncated
  else .ok sharedX

/-- Modelled from the spec: §4.6, decoding of one subfile of the missing
`spc_reader.cpp`: effective exponent, X axis, Y block, then the length
verification `len(X) = len(Y) = n ≥ 1` (else `ShapeMismatch`). -/
def decodeOneSub (h : MainHeader) (sharedX : List ℚ) (s : SubfileRaw) :
    Except SpcError (List ℚ × List ℚ) :=
  let eff := effectiveExp h.exponent s.subExp
  let n := subPointCount h s
  match subXAxis h sharedX n s with
  | .error e => .error e
  | .ok x =>
    match decodeY h.flags.tsprec eff n s.yBytes with
    | .error e => .error e
    | .ok y =>
      if x.length = n ∧ y.length = n ∧ 1 ≤ n then .ok (x, y)
      else .error .shapeMismatch

/-- Modelled from the spec: §4.6 subfile loop of the missing
`spc_reader.cpp`: decode `k` subfiles in order; running out of subfile
data is `Truncated`. -/
def decodeSubs (h : MainHeader) (sharedX : List ℚ) :
    Nat → List SubfileRaw → Except SpcError (List (List ℚ × List ℚ))
  | 0, _ => .ok []
  | _ + 1, [] => .error .truncated
  | k + 1, s :: rest =>
    match decodeOneSub h sharedX s with
    | .error e => .error e
    | .ok p =>
      match decodeSubs h sharedX k rest with
      | .ok t => .ok (p :: t)
      | .error e => .error e

/-- Modelled from the spec: §4.3/§4.6, the shared X axis: none in TXYXYS
mode, the explicit f32 block after the main header when TXVALS, otherwise
the generated even axis. -/
def sharedXAxis (h : MainHeader) (bytes : List Nat) : Except SpcError (List ℚ) :=
  if h.flags.txyxys then .ok []
  else if h.flags.txvals then
    match readF32s h.npts.toNat bytes with
    | some xs => .ok xs
    | none => .error .truncated
  else .ok (evenX h.first h.last h.npts.toNat)

/-- Modelled from the spec: §4.6 file dispatcher of the missing
`spc_reader.cpp`: validate the header, materialize the shared X axis,
then run the subfile loop over the effective subfile count. -/
def decode (f : SpcRaw) : Except SpcError (List (List ℚ × List ℚ)) :=
  match validateHeader f.header with
  | .error e => .error e
  | .ok _ =>
    match sharedXAxis f.header f.sharedXBytes with
    | .error e => .error e
    | .ok sharedX => decodeSubs f.header sharedX (effNsub f.header) f.subs

/-! ## The Python wrapper `read_spc` (src/specio3/__init__.py)

The wrapper receives the native decoder's result — a Python object — and
validates its shape before converting it to a list of `(x, y)` pairs.
Python values are modelled by `PyVal`: dictionaries, lists, numeric arrays
(anything `np.array(-, dtype=float64)` accepts, with values exact in ℚ),
and an opaque `pyOther` for every other object. -/

/-- Model of the Python values the wrapper inspects. -/
inductive PyVal where
  | pyDict (entries : List (String × PyVal))
  | pyList (items : List PyVal)
  | pyArr (xs : List ℚ)
  | pyOther

instance : Inhabited PyVal := ⟨.pyOther⟩

/-- The `RuntimeError`s `read_spc` can raise (src/specio3/__init__.py lines
95–122), plus `typeErr` for Python's own `TypeError` when a truthy
non-sequence is iterated, and `arrayConv` for a failing `np.array`
conversion. -/
inductive ReadError where
  | expectedDict
  | noSubfilesKey
  | noSpectra
  | typeErr
  | badSubfile (i : Nat)
  | arrayConv (i : Nat)
  | lengthMismatch (i : Nat) (nx ny : Nat)
  | emptySpectrum (i : Nat)
  deriving DecidableEq

/-- Python dictionary lookup (`d[k]` / `k in d`). -/
def lookupKey (es : List (String × PyVal)) (k : String) : Option PyVal :=
  match es.find? (fun p => p.1 == k) with
  | some p => some p.2
  | none => none

/-- Python truthiness of the modelled values (`if not subfiles`). -/
def pyTruthy : PyVal → Bool
  | .pyDict es => !es.isEmpty
  | .pyList xs => !xs.isEmpty
  | .pyArr xs => !xs.isEmpty
  | .pyOther => true

/-- `np.array(v, dtype=np.float64)` as far as the wrapper observes it:
numeric arrays convert, everything else is a conversion failure. -/
def toFloats : PyVal → Option (List ℚ)
  | .pyArr xs => some xs
  | _ => none

/-- The wrapper's per-subfile loop (src/specio3/__init__.py lines 107–124):
for each subfile check it is a dict with `x` and `y` keys, convert both to
arrays, reject mismatched or zero lengths, and accumulate `(x, y)`.  The
first argument is the running `enumerate` index. -/
def processSubfiles : Nat → List PyVal → Except ReadError (List (List ℚ × List ℚ))
  | _, [] => .ok []
  | i, s :: rest =>
    match s with
    | .pyDict es =>
      match lookupKey es "x", lookupKey es "y" with
      | some xv, some yv =>
        match toFloats xv, toFloats yv with
        | some xs, some ys =>
          if xs.length ≠ ys.length then .error (.lengthMismatch i xs.length ys.length)
          else if xs.length = 0 then .error (.emptySpectrum i)
          else
            match processSubfiles (i + 1) rest with
            | .ok t => .ok ((xs, ys) :: t)
            | .error e => .error e
        | _, _ => .error (.arrayConv i)
      | _, _ => .error (.badSubfile i)
    | _ => .error (.badSubfile i)

/-- The wrapper `read_spc` (src/specio3/__init__.py lines 92–126), as a
function of the native decoder's result: require a dict, require a
`subfiles` key, require it truthy, then run the subfile loop. -/
def read_spc (v : PyVal) : Except ReadError (List (List ℚ × List ℚ)) :=
  match v with
  | .pyDict es =>
    match lookupKey es "subfiles" with
    | none => .error .noSubfilesKey
    | some sv =>
      if !pyTruthy sv then .error .noSpectra
      else
        match sv with
        | .pyList subs => processSubfiles 0 subs
        | _ => .error .typeErr
  | _ => .error .expectedDict

/-- A subfile value that passes every check of the wrapper's loop. -/
def goodSubfile (s : PyVal) : Bool :=
  match s with
  | .pyDict es =>
    match lookupKey es "x", lookupKey es "y" with
    | some xv, some yv =>
      match toFloats xv, toFloats yv with
      | some xs, some ys => xs.length == ys.length && xs.length != 0
      | _, _ => false
    | _, _ => false
  | _ => false

/-- A subfile value that is a dict carrying both `x` and `y` keys (the
shape check of src/specio3/__init__.py line 108). -/
def hasXY (s : PyVal) : Bool :=
  match s with
  | .pyDict es => (lookupKey es "x").isSome && (lookupKey es "y").isSome
  | _ => false

/-! ## Helper lemmas about the wrapper loop -/

theorem processSubfiles_cons (i : Nat) (s : PyVal) (rest : List PyVal) :
    processSubfiles i (s :: rest) =
      match processSubfiles i [s] with
      | .ok hd =>
        match processSubfiles (i + 1) rest with
        | .ok t => .ok (hd ++ t)
        | .error e => .error e
      | .error e => .error e := by
  cases s with
  | pyDict es =>
    simp only [processSubfiles]
    rcases hx : lookupKey es "x" with _ | xv <;>
      rcases hy : lookupKey es "y" with _ | yv <;>
        simp only []
    · rcases htx : toFloats xv with _ | xs <;> rcases hty : toFloats yv with _ | ys <;>
        simp only []
      by_cases hlen : xs.length ≠ ys.length
      · simp only [if_pos hlen]
      · simp only [if_neg hlen]
        by_cases hz : xs.length = 0
        · simp only [if_pos hz]
        · simp only [if_neg hz]
          rcases hres : processSubfiles (i + 1) rest with t | e <;> simp
  | pyList items => rfl
  | pyArr xs => rfl
  | pyOther => rfl

theorem processSubfiles_single_ok (i : Nat) (s : PyVal) (hd : List (List ℚ × List ℚ))
    (h : processSubfiles i [s] = .ok hd) :
    goodSubfile s = true ∧
      ∃ xs ys, hd = [(xs, ys)] ∧ xs.length = ys.length ∧ 1 ≤ xs.length := by
  cases s with
  | pyDict es =>
    simp only [processSubfiles, goodSubfile] at h ⊢
    rcases hx : lookupKey es "x" with _ | xv <;>
      rcases hy : lookupKey es "y" with _ | yv <;>
        simp only [hx, hy] at h ⊢
    · exact Except.noConfusion h
    · exact Except.noConfusion h
    · exact Except.noConfusion h
    · rcases htx : toFloats xv with _ | xs <;> rcases hty : toFloats yv with _ | ys <;>
        simp only [htx, hty] at h ⊢
      · exact Except.noConfusion h
      · exact Except.noConfusion h
      · exact Except.noConfusion h
      · by_cases hlen : xs.length ≠ ys.length
        · rw [if_pos hlen] at h
          exact Except.noConfusion h
        · rw [if_neg hlen] at h
          by_cases hz : xs.length = 0
          · rw [if_pos hz] at h
            exact Except.noConfusion h
          · rw [if_neg hz] at h
            push_neg at hlen
            cases h
            refine ⟨?_, xs, ys, rfl, hlen, Nat.one_le_iff_ne_zero.mpr hz⟩
            simp only [Bool.and_eq_true, beq_iff_eq, bne_iff_ne, ne_eq]
            exact ⟨hlen, hz⟩
  | pyList items => exact Except.noConfusion h
  | pyArr xs => exact Except.noConfusion h
  | pyOther => exact Except.noConfusion h

theorem processSubfiles_single_of_good (i : Nat) (s : PyVal)
    (hg : goodSubfile s = true) :
    ∃ hd, processSubfiles i [s] = .ok hd := by
  cases s with
  | pyDict es =>
    simp only [processSubfiles, goodSubfile] at hg ⊢
    rcases hx : lookupKey es "x" with _ | xv <;>
      rcases hy : lookupKey es "y" with _ | yv <;>
        simp only [hx, hy] at hg ⊢
    · exact Bool.noConfusion hg
    · exact Bool.noConfusion hg
    · exact Bool.noConfusion hg
    · rcases htx : toFloats xv with _ | xs <;> rcases hty : toFloats yv with _ | ys <;>
        simp only [htx, hty] at hg ⊢
      · exact Bool.noConfusion hg
      · exact Bool.noConfusion hg
      · exact Bool.noConfusion hg
      · simp only [Bool.and_eq_true, beq_iff_eq, bne_iff_ne, ne_eq] at hg
        refine ⟨[(xs, ys)], ?_⟩
        rw [if_neg (by omega), if_neg hg.2]
  | pyList items => exact Bool.noConfusion hg
  | pyArr xs => exact Bool.noConfusion hg
  | pyOther => exact Bool.noConfusion hg

theorem processSubfiles_single_badXY (i : Nat) (s : PyVal)
    (hb : hasXY s = false) :
    processSubfiles i [s] = .error (.badSubfile i) := by
  cases s with
  | pyDict es =>
    simp only [processSubfiles, hasXY] at hb ⊢
    rcases hx : lookupKey es "x" with _ | xv <;>
      rcases hy : lookupKey es "y" with _ | yv <;>
        simp only [hx, hy] at hb ⊢
    simp at hb
  | pyList items => rfl
  | pyArr xs => rfl
  | pyOther => rfl

theorem processSubfiles_ok_all (subs : List PyVal) :
    ∀ i res, processSubfiles i subs = .ok res →
      res.length = subs.length ∧
      (∀ p ∈ res, p.1.length = p.2.length ∧ 1 ≤ p.1.length) ∧
      (∀ j, j < subs.length → goodSubfile (subs.getD j .pyOther) = true) := by
  induction subs with
  | nil =>
    intro i res h
    simp only [processSubfiles] at h
    cases h
    refine ⟨rfl, ?_, ?_⟩
    · intro p hp
      exact absurd hp (List.not_mem_nil p)
    · intro j hj
      exact absurd hj (Nat.not_lt_zero j)
  | cons s rest ih =>
    intro i res h
    rw [processSubfiles_cons] at h
    rcases hhd : processSubfiles i [s] with e | hd <;> simp only [hhd] at h
    · exact Except.noConfusion h
    · rcases hrest : processSubfiles (i + 1) rest with e | t <;> simp only [hrest] at h
      · exact Except.noConfusion h
      · cases h
        obtain ⟨hgood, xs, ys, hhd2, hlen, hpos⟩ := processSubfiles_single_ok i s hd hhd
        obtain ⟨hlen2, hmem, hgoods⟩ := ih (i + 1) t hrest
        subst hhd2
        refine ⟨by simp [hlen2], ?_, ?_⟩
        · intro p hp
          rcases List.mem_append.mp hp with hp1 | hp2
          · rcases List.mem_singleton.mp hp1 with rfl
            exact ⟨hlen, hpos⟩
          · exact hmem p hp2
        · intro j hj
          cases j with
          | zero => simpa using hgood
          | succ j =>
            simp only [List.getD_cons_succ]
            exact hgoods j (by simpa using hj)

theorem processSubfiles_first_bad (subs : List PyVal) :
    ∀ k i, (∀ j, j < i → goodSubfile (subs.getD j .pyOther) = true) →
      i < subs.length → hasXY (subs.getD i .pyOther) = false →
      processSubfiles k subs = .error (.badSubfile (k + i)) := by
  induction subs with
  | nil =>
    intro k i _ hi _
    exact absurd hi (Nat.not_lt_zero i)
  | cons s rest ih =>
    intro k i hgood hi hbad
    cases i with
    | zero =>
      rw [processSubfiles_cons, processSubfiles_single_badXY k s (by simpa using hbad)]
      rfl
    | succ i =>
      have hg0 : goodSubfile s = true := by simpa using hgood 0 (Nat.succ_pos i)
      obtain ⟨hd, hhd⟩ := processSubfiles_single_of_good k s hg0
      rw [processSubfiles_cons, hhd]
      have hrec := ih (k + 1) i
        (fun j hj => by simpa using hgood (j + 1) (by omega))
        (by simpa using hi) (by simpa using hbad)
      rw [hrec]
      have : k + 1 + i = k + (i + 1) := by omega
      rw [this]

/-! ## Helper lemmas about the decoder model -/

theorem validateHeader_ok (h : MainHeader) (hv : validateHeader h = .ok ()) :
    h.version = 75 ∧ 0 < h.npts ∧ 0 < h.nsub ∧
      (h.flags.txyxys = true → h.flags.tmulti = true) := by
  simp only [validateHeader] at hv
  split at hv
  · exact Except.noConfusion hv
  · split at hv
    · exact Except.noConfusion hv
    · split at hv
      · exact Except.noConfusion hv
      · split at hv
        · exact Except.noConfusion hv
        · rename_i h1 h2 h3 h4
          simp only [Bool.and_eq_true, Bool.not_eq_true'] at h4
          refine ⟨by omega, by omega, by omega, ?_⟩
          intro hx
          by_contra hm
          exact h4 ⟨hx, by simp [hm]⟩

theorem decodeSubs_ok_length (h : MainHeader) (sx : List ℚ) :
    ∀ k subs out, decodeSubs h sx k subs = .ok out → out.length = k := by
  intro k
  induction k with
  | zero =>
    intro subs out hh
    simp only [decodeSubs] at hh
    cases hh
    rfl
  | succ k ih =>
    intro subs out hh
    cases subs with
    | nil =>
      simp only [decodeSubs] at hh
      exact Except.noConfusion hh
    | cons s rest =>
      simp only [decodeSubs] at hh
      rcases hp : decodeOneSub h sx s with e | p <;> simp only [hp] at hh
      · exact Except.noConfusion hh
      · rcases ht : decodeSubs h sx k rest with e | t <;> simp only [ht] at hh
        · exact Except.noConfusion hh
        · cases hh
          simp [ih rest t ht]

theorem read_spc_ok_parts (v : PyVal) (res : List (List ℚ × List ℚ))
    (h : read_spc v = .ok res) :
    ∃ es subs, v = .pyDict es ∧ lookupKey es "subfiles" = some (.pyList subs) ∧
      processSubfiles 0 subs = .ok res := by
  cases v with
  | pyDict es =>
    simp only [read_spc] at h
    rcases hs : lookupKey es "subfiles" with _ | sv <;> simp only [hs] at h
    · exact Except.noConfusion h
    · cases htr : pyTruthy sv <;>
        simp only [htr, Bool.not_false, Bool.not_true, if_true, if_false] at h
      · exact Except.noConfusion h
      · cases sv with
        | pyList subs => exact ⟨es, subs, rfl, hs, h⟩
        | pyDict es2 => exact Except.noConfusion h
        | pyArr xs => exact Except.noConfusion h
        | pyOther => exact Except.noConfusion h
  | pyList items => exact Except.noConfusion h
  | pyArr xs => exact Except.noConfusion h
  | pyOther => exact Except.noConfusion h

/-! ## Claims -/

/-- C1: for every successful call to `read_spc`, every returned pair
`(X, Y)` satisfies `len(X) = len(Y)` and `len(X) ≥ 1`; a pair with
mismatched or zero lengths is never returned. -/
theorem read_spc_pairs_wellformed (v : PyVal) (res : List (List ℚ × List ℚ))
    (h : read_spc v = .ok res) :
    ∀ p ∈ res, p.1.length = p.2.length ∧ 1 ≤ p.1.length := by
  obtain ⟨es, subs, rfl, hs, hproc⟩ := read_spc_ok_parts v res h
  exact (processSubfiles_ok_all subs 0 res hproc).2.1

/-- Witness for C1 at a concrete native result with one two-point
spectrum. -/
theorem read_spc_pairs_wellformed_witness :
    ((([1, 2], [3, 4]) : List ℚ × List ℚ)).1.length =
      ((([1, 2], [3, 4]) : List ℚ × List ℚ)).2.length ∧
    1 ≤ ((([1, 2], [3, 4]) : List ℚ × List ℚ)).1.length :=
  read_spc_pairs_wellformed
    (.pyDict [("subfiles", .pyList [.pyDict [("x", .pyArr [1, 2]), ("y", .pyArr [3, 4])]])])
    [([1, 2], [3, 4])] (by rfl) ([1, 2], [3, 4]) (by simp)

/-- C2: in the 32-bit integer Y path, each 4-byte on-disk word
`[b2, b3, b0, b1]` is reassembled into the canonical signed little-endian
i32 by swapping its 16-bit halves; stored bytes `00 00 01 00` decode to
the raw integer 1, while a naive little-endian read would give 65536. -/
theorem swappedI32_reassembles :
    (∀ c0 c1 c2 c3 : Nat, c0 < 256 → c1 < 256 → c2 < 256 → c3 < 256 →
      swappedI32 c2 c3 c0 c1 = toI32 (leU32 c0 c1 c2 c3) ∧
      swappedI32 c2 c3 c0 c1 = toI32 (halfSwap16 (leU32 c2 c3 c0 c1))) ∧
    readSwappedI32s 1 [0, 0, 1, 0] = some [1] ∧
    toI32 (leU32 0 0 1 0) = 65536 := by
  refine ⟨?_, ?_, ?_⟩
  · intro c0 c1 c2 c3 h0 h1 h2 h3
    refine ⟨rfl, ?_⟩
    unfold swappedI32 halfSwap16 leU32
    congr 1
    omega
  · norm_num [readSwappedI32s, swappedI32, toI32]
  · norm_num [leU32, toI32]

/-- Witness for C2 at the concrete canonical bytes `[1, 2, 3, 4]`
(stored on disk as `[3, 4, 1, 2]`). -/
theorem swappedI32_reassembles_witness :
    (1 < 256 ∧ 2 < 256 ∧ 3 < 256 ∧ 4 < 256) ∧
    (swappedI32 3 4 1 2 = toI32 (leU32 1 2 3 4) ∧
     swappedI32 3 4 1 2 = toI32 (halfSwap16 (leU32 3 4 1 2))) :=
  ⟨by decide,
   swappedI32_reassembles.1 1 2 3 4 (by decide) (by decide) (by decide) (by decide)⟩

/-- C3: for every integer-Y subfile with effective exponent `e`, the
decoded Y list is exactly the list of raw integer words scaled by
`2 ^ (e − W)`, with `W = 16` when TSPREC is set and `W = 32` otherwise,
as exact power-of-two scaling in ℚ. -/
theorem decodeY_integer_scaling (tsprec : Bool) (e : Int) (n : Nat) (bytes : List Nat)
    (ys : List ℚ) (rs : List Int) (hf : isFloatExp e = false)
    (hr : (if tsprec then readI16s n bytes else readSwappedI32s n bytes) = some rs)
    (h : decodeY tsprec e n bytes = .ok ys) :
    ys = rs.map fun r => (r : ℚ) * (2 : ℚ) ^ (e - (if tsprec then 16 else 32)) := by
  cases tsprec with
  | false =>
    simp only [Bool.false_eq_true, if_false] at hr ⊢
    simp only [decodeY, hf, Bool.false_eq_true, if_false, hr] at h
    cases h
    rfl
  | true =>
    simp only [if_true] at hr ⊢
    simp only [decodeY, hf, Bool.false_eq_true, if_false, if_true, hr] at h
    cases h
    rfl

/-- Witness for C3: one 16-bit word `[1, 0]` with exponent 0 decodes to
`1 · 2 ^ (0 − 16)`. -/
theorem decodeY_integer_scaling_witness :
    isFloatExp 0 = false ∧
    (if true then readI16s 1 [1, 0] else readSwappedI32s 1 [1, 0]) = some [1] ∧
    [(1 : ℚ) * (2 : ℚ) ^ ((0 : Int) - (if true then 16 else 32))] =
      ([1] : List Int).map fun r =>
        (r : ℚ) * (2 : ℚ) ^ ((0 : Int) - (if true then 16 else 32)) :=
  ⟨by decide, by decide,
   decodeY_integer_scaling true 0 1 [1, 0] _ [1] (by decide) (by decide)
     (by norm_num [decodeY, isFloatExp, readI16s, toI16])⟩

/-- C4 counterexample: at `first = 0`, `last = 1`, `npts = 1` the even
axis is `[first]` (as the claim itself requires), so `X[npts − 1] = 0`
differs from `last = 1`; the endpoint clause of the claim fails. -/
theorem evenX_endpoint_counterexample :
    evenX 0 1 1 = [0] ∧ (evenX 0 1 1).getD (1 - 1) 0 = 0 ∧ (0 : ℚ) ≠ 1 := by
  norm_num [evenX]

/-- C4 (amended): the even X axis has `npts` values
`x[i] = first + i·(last − first)/(npts − 1)` (exact in ℚ), is `[first]`
when `npts = 1`, starts at `first`, and ends at `last` when `npts ≥ 2`. -/
theorem evenX_generation (first last : ℚ) (npts : Nat) :
    (evenX first last npts).length = npts ∧
    (∀ i, i < npts →
      (evenX first last npts).getD i 0 =
        first + (i : ℚ) * (last - first) / ((npts : ℚ) - 1)) ∧
    (npts = 1 → evenX first last npts = [first]) ∧
    (1 ≤ npts → (evenX first last npts).getD 0 0 = first) ∧
    (2 ≤ npts → (evenX first last npts).getD (npts - 1) 0 = last) := by
  have hform : ∀ i, i < npts →
      (evenX first last npts).getD i 0 =
        first + (i : ℚ) * (last - first) / ((npts : ℚ) - 1) := by
    intro i hi
    unfold evenX
    by_cases h1 : npts = 1
    · subst h1
      have hi0 : i = 0 := by omega
      subst hi0
      norm_num
    · rw [if_neg h1]
      rw [List.getD_eq_getElem _ _ (by rw [List.length_map, List.length_range]; exact hi)]
      rw [List.getElem_map, List.getElem_range]
  refine ⟨?_, hform, ?_, ?_, ?_⟩
  · by_cases h1 : npts = 1
    · simp [evenX, h1]
    · unfold evenX
      rw [if_neg h1, List.length_map, List.length_range]
  · intro h1
    simp [evenX, h1]
  · intro h1
    rw [hform 0 (by omega)]
    norm_num
  · intro h2
    rw [hform (npts - 1) (by omega)]
    have hc : ((npts - 1 : Nat) : ℚ) = (npts : ℚ) - 1 := by
      rw [Nat.cast_sub (by omega)]
      norm_num
    rw [hc]
    have hne : (npts : ℚ) - 1 ≠ 0 := by
      have h2q : (2 : ℚ) ≤ (npts : ℚ) := by exact_mod_cast h2
      intro hz
      rw [sub_eq_zero] at hz
      rw [hz] at h2q
      norm_num at h2q
    field_simp

/-- Witness for C4 (amended) at `first = 100`, `last = 400`, `npts = 4`. -/
theorem evenX_generation_witness :
    (2 ≤ 4 ∧ (evenX 100 400 4).getD (4 - 1) 0 = 400) ∧
    (1 ≤ 4 ∧ (evenX 100 400 4).getD 0 0 = 100) :=
  ⟨⟨by decide, (evenX_generation 100 400 4).2.2.2.2 (by decide)⟩,
   ⟨by decide, (evenX_generation 100 400 4).2.2.2.1 (by decide)⟩⟩

/-- C5: the effective exponent is the main-header exponent when the
subheader exponent is the sentinel −32768 and the subheader exponent
otherwise; an effective exponent with low 8 bits 0x80 selects the
floating-point Y path, regardless of TSPREC. -/
theorem exponent_resolution :
    (∀ m : Int, effectiveExp m (-32768) = m) ∧
    (∀ m s : Int, s ≠ -32768 → effectiveExp m s = s) ∧
    (∀ e : Int, isFloatExp e = true → ∀ (tsprec : Bool) (n : Nat) (bytes : List Nat),
      decodeY tsprec e n bytes = floatY n bytes) := by
  refine ⟨fun m => by simp [effectiveExp], fun m s hs => by simp [effectiveExp, hs], ?_⟩
  intro e hf tsprec n bytes
  simp [decodeY, hf]

/-- Witness for C5: a non-sentinel subheader exponent is kept, and
`e = −128` forces the float path even with TSPREC set. -/
theorem exponent_resolution_witness :
    ((7 : Int) ≠ -32768 ∧ effectiveExp 5 7 = 7) ∧
    (isFloatExp (-128) = true ∧
      decodeY true (-128) 1 [0, 0, 0, 0] = floatY 1 [0, 0, 0, 0]) :=
  ⟨⟨by decide, exponent_resolution.2.1 5 7 (by decide)⟩,
   ⟨by decide, exponent_resolution.2.2 (-128) (by decide) true 1 [0, 0, 0, 0]⟩⟩

/-- C6: a main-header version byte other than 0x4B makes the decode fail
with `UnsupportedVariant`; no spectra are returned. -/
theorem decode_bad_version (f : SpcRaw) (hv : f.header.version ≠ 75) :
    decode f = .error .unsupportedVariant := by
  simp only [decode, validateHeader, if_pos hv]

/-- Witness for C6 at version byte 0x4C (76). -/
theorem decode_bad_version_witness :
    ((⟨⟨⟨false, false, false, false⟩, 76, 0, 1, 0, 0, 1⟩, [], []⟩ : SpcRaw).header.version ≠ 75) ∧
    decode ⟨⟨⟨false, false, false, false⟩, 76, 0, 1, 0, 0, 1⟩, [], []⟩ =
      .error .unsupportedVariant :=
  ⟨by decide, decode_bad_version _ (by decide)⟩

/-- Sample single-spectrum file: no flags, one point, one i32 Y word. -/
def sampleH : MainHeader := ⟨⟨false, false, false, false⟩, 75, 0, 1, 5, 5, 1⟩

/-- Sample raw file around `sampleH` with Y bytes `[0, 0, 1, 0]`. -/
def sampleF : SpcRaw := ⟨sampleH, [], [⟨0, 0, [], [0, 0, 1, 0]⟩]⟩

/-- C7: a successful decode returns exactly `effNsub` spectra (where
`nsub` is forced to 1 when TMULTI is clear), hence never an empty list. -/
theorem decode_length_eq_nsub (f : SpcRaw) (out : List (List ℚ × List ℚ))
    (h : decode f = .ok out) :
    out.length = effNsub f.header ∧ 1 ≤ out.length := by
  simp only [decode] at h
  rcases hv : validateHeader f.header with e | u <;> simp only [hv] at h
  · exact Except.noConfusion h
  · cases u
    rcases hx : sharedXAxis f.header f.sharedXBytes with e | sx <;> simp only [hx] at h
    · exact Except.noConfusion h
    · have hlen := decodeSubs_ok_length f.header sx (effNsub f.header) f.subs out h
      obtain ⟨-, -, hnsub, -⟩ := validateHeader_ok f.header hv
      refine ⟨hlen, ?_⟩
      rw [hlen]
      unfold effNsub
      split
      · omega
      · omega

/-- Witness for C7 on the sample file. -/
theorem decode_length_eq_nsub_witness :
    ([([5], [(2 : ℚ) ^ (-(32 : Int))])] : List (List ℚ × List ℚ)).length = effNsub sampleH ∧
    1 ≤ ([([5], [(2 : ℚ) ^ (-(32 : Int))])] : List (List ℚ × List ℚ)).length :=
  decode_length_eq_nsub sampleF _
    (by norm_num [decode, sampleF, sampleH, validateHeader, sharedXAxis, effNsub,
      decodeSubs, decodeOneSub, subPointCount, subXAxis, decodeY, isFloatExp,
      effectiveExp, readSwappedI32s, swappedI32, toI32, evenX])

/-- C8: a successful `read_spc` call has processed every subfile of the
native result — every error is fatal, and no partial list is ever
returned. -/
theorem read_spc_no_partial (es : List (String × PyVal)) (subs : List PyVal)
    (res : List (List ℚ × List ℚ))
    (hs : lookupKey es "subfiles" = some (.pyList subs))
    (h : read_spc (.pyDict es) = .ok res) :
    res.length = subs.length ∧
      ∀ j, j < subs.length → goodSubfile (subs.getD j .pyOther) = true := by
  obtain ⟨es2, subs2, heq, hs2, hproc⟩ := read_spc_ok_parts _ res h
  injection heq with heq
  subst heq
  rw [hs] at hs2
  injection hs2 with hs2
  injection hs2 with hs2
  subst hs2
  obtain ⟨hl, -, hg⟩ := processSubfiles_ok_all subs 0 res hproc
  exact ⟨hl, hg⟩

/-- Witness for C8 at a concrete one-subfile native result. -/
theorem read_spc_no_partial_witness :
    ([([7], [8])] : List (List ℚ × List ℚ)).length =
      [PyVal.pyDict [("x", PyVal.pyArr [7]), ("y", PyVal.pyArr [8])]].length ∧
    goodSubfile
      ([PyVal.pyDict [("x", PyVal.pyArr [7]), ("y", PyVal.pyArr [8])]].getD 0 .pyOther) =
      true := by
  have h := read_spc_no_partial
    [("subfiles", .pyList [.pyDict [("x", .pyArr [7]), ("y", .pyArr [8])]])]
    [.pyDict [("x", .pyArr [7]), ("y", .pyArr [8])]] [([7], [8])] rfl (by rfl)
  exact ⟨h.1, h.2 0 (by decide)⟩

/-- C9: the decoder is deterministic — two successful decodes of the same
bytes agree elementwise; the model is a pure function of the input. -/
theorem decode_deterministic (f : SpcRaw) (out1 out2 : List (List ℚ × List ℚ))
    (h1 : decode f = .ok out1) (h2 : decode f = .ok out2) :
    out1.length = out2.length ∧ ∀ j, out1.getD j ([], []) = out2.getD j ([], []) := by
  rw [h1] at h2
  cases h2
  exact ⟨rfl, fun j => rfl⟩

/-- Witness for C9 on the sample file. -/
theorem decode_deterministic_witness :
    ([([5], [(2 : ℚ) ^ (-(32 : Int))])] : List (List ℚ × List ℚ)).length =
      ([([5], [(2 : ℚ) ^ (-(32 : Int))])] : List (List ℚ × List ℚ)).length ∧
    ([([5], [(2 : ℚ) ^ (-(32 : Int))])] : List (List ℚ × List ℚ)).getD 0 ([], []) =
      ([([5], [(2 : ℚ) ^ (-(32 : Int))])] : List (List ℚ × List ℚ)).getD 0 ([], []) := by
  have h := decode_deterministic sampleF
    [([5], [(2 : ℚ) ^ (-(32 : Int))])] [([5], [(2 : ℚ) ^ (-(32 : Int))])]
    (by norm_num [decode, sampleF, sampleH, validateHeader, sharedXAxis, effNsub,
      decodeSubs, decodeOneSub, subPointCount, subXAxis, decodeY, isFloatExp,
      effectiveExp, readSwappedI32s, swappedI32, toI32, evenX])
    (by norm_num [decode, sampleF, sampleH, validateHeader, sharedXAxis, effNsub,
      decodeSubs, decodeOneSub, subPointCount, subXAxis, decodeY, isFloatExp,
      effectiveExp, readSwappedI32s, swappedI32, toI32, evenX])
  exact ⟨h.1, h.2 0⟩

/-- C10: `read_spc` raises a `RuntimeError` when the native result is not
a dict, lacks a `subfiles` key, has an empty subfiles list, or contains a
subfile that is not a dict with `x` and `y` keys; the error for a bad
subfile carries that subfile's index. -/
theorem read_spc_error_paths :
    (∀ v : PyVal, (∀ es, v ≠ .pyDict es) → read_spc v = .error .expectedDict) ∧
    (∀ es, lookupKey es "subfiles" = none → read_spc (.pyDict es) = .error .noSubfilesKey) ∧
    (∀ es, lookupKey es "subfiles" = some (.pyList []) →
      read_spc (.pyDict es) = .error .noSpectra) ∧
    (∀ es subs i, lookupKey es "subfiles" = some (.pyList subs) →
      (∀ j, j < i → goodSubfile (subs.getD j .pyOther) = true) →
      i < subs.length → hasXY (subs.getD i .pyOther) = false →
      read_spc (.pyDict es) = .error (.badSubfile i)) := by
  refine ⟨?_, ?_, ?_, ?_⟩
  · intro v hv
    cases v with
    | pyDict es => exact absurd rfl (hv es)
    | pyList items => rfl
    | pyArr xs => rfl
    | pyOther => rfl
  · intro es hs
    simp [read_spc, hs]
  · intro es hs
    simp [read_spc, hs, pyTruthy]
  · intro es subs i hs hgood hi hbad
    have hne : subs.isEmpty = false := by
      cases subs
      · exact absurd hi (by simp)
      · rfl
    have hbadall := processSubfiles_first_bad subs 0 i hgood hi hbad
    simp only [read_spc, hs, pyTruthy, hne, Bool.not_false, Bool.not_true, if_true, if_false]
    rw [hbadall]
    norm_num

/-- Witness for C10: one subfile that is a bare array (no dict) yields the
index-carrying error for subfile 0. -/
theorem read_spc_error_paths_witness :
    (0 < 1 ∧ hasXY (([PyVal.pyArr []] : List PyVal).getD 0 .pyOther) = false) ∧
    read_spc (.pyDict [("subfiles", .pyList [.pyArr []])]) = .error (.badSubfile 0) :=
  ⟨⟨by decide, by rfl⟩,
   read_spc_error_paths.2.2.2 [("subfiles", .pyList [.pyArr []])] [.pyArr []] 0
     (by rfl) (fun j hj => absurd hj (Nat.not_lt_zero j)) (by decide) (by rfl)⟩

end Specio3
